import Mathlib

/-!
Shallow embedding of the Conway's Game of Life engine from `src/game.rs`
(struct `Game` and its methods), together with theorems checking the
natural-language specification against it.

Conventions of the embedding:
* `usize` values (dimensions, cell indices) are `Nat`; the `i32`
  coordinates of `count_neighbors` are `Int` (the grids reachable in the
  program are far below any overflow boundary, so the unbounded types
  agree with the machine ones on all reachable values).
* `Vec<Vec<bool>>` is `List (List Bool)`; the outer index is the column
  `x` (there are `ncols` of them), the inner index the row `y`.
* Rust's panicking index operation `v[i]` is modelled as the fallible
  `List.get?`, so any function that indexes returns an `Option`; a
  `None` result marks the panic branch.  Totality claims then say the
  result is always `some _`.
* `Result<T, String>` is `Except String T`.
-/

/-- The state of the Game of Life (`struct Game` in `game.rs`).
`cells` is indexed `cells[x][y]` with `x < ncols`, `y < nrows`. -/
structure Game where
  ncols : Nat
  nrows : Nat
  cell_size : Nat
  cells : List (List Bool)
  deriving Repr, DecidableEq

namespace Game

/-- Well-formedness of the `cells` buffer relative to the stored
dimensions: `ncols` columns, each of length `nrows`.  Every `Game` the
Rust code constructs satisfies this. -/
def WF (g : Game) : Prop :=
  g.cells.length = g.ncols ∧ ∀ col ∈ g.cells, col.length = g.nrows

instance (g : Game) : Decidable g.WF := by
  unfold WF; infer_instance

/-- Fallible double index `self.cells[x][y]` (panic modelled as `none`). -/
def cellAt? (g : Game) (x y : Nat) : Option Bool :=
  g.cells[x]?.bind fun col => col[y]?

/-- Total read of a cell, defaulting to `false`; used to state specs.
On a well-formed grid it agrees with `cellAt?` at in-bounds indices. -/
def liveAt (g : Game) (x y : Nat) : Bool :=
  (g.cells.getD x []).getD y false

/-- The validation in `Game::validate_start_parameters`. -/
def validate_start_parameters (height width cell_size : Nat) :
    Except String Unit :=
  if height = 0 || width = 0 || cell_size = 0 then
    .error "Neither height, width nor cell size can be 0"
  else
    .ok ()

/-- The constructor `Game::new`: validates, then derives the grid shape
from the pixel dimensions and the cell size and fills it with dead
cells (`vec![vec![false; nrows]; ncols]`). -/
def new (height width cell_size : Nat) : Except String Game :=
  match validate_start_parameters height width cell_size with
  | .error e => .error e
  | .ok _ =>
      let ncols := width / cell_size
      let nrows := height / cell_size
      let cells := List.replicate ncols (List.replicate nrows false)
      .ok { ncols := ncols, nrows := nrows, cell_size := cell_size,
            cells := cells }

/-- The mutation step of `Game::toggle_cell_state`, with the cell
coordinates `(x, y)` (computed in Rust from the mouse position) made
explicit arguments: flips `cells[x][y]` when `x < ncols && y < nrows`,
otherwise leaves the game unchanged. -/
def toggle_cell_state (g : Game) (x y : Nat) : Game :=
  if x < g.ncols ∧ y < g.nrows then
    { g with cells :=
        (g.cells.set x
          ((g.cells.getD x []).set y (!(g.cells.getD x []).getD y false))) }
  else
    g

/-- One iteration of the inner `dy` loop body of
`Game::count_neighbors`, for a fixed neighbor column `nx`: skip a
neighbor row that falls outside the grid (`continue` is `pure count`),
skip the cell itself, otherwise index the grid (the panicking index is
the fallible `cellAt?`) and count it when live. -/
def rowStep (g : Game) (x y nx : Int) (count : Nat) (dy : Int) :
    Option Nat :=
  let ny := y + dy
  if ny < 0 || (g.nrows : Int) ≤ ny then
    pure count
  else if nx = x ∧ ny = y then
    pure count
  else
    (g.cellAt? nx.toNat ny.toNat).bind fun cell =>
      pure (if cell then count + 1 else count)

/-- The inner `dy` loop of `Game::count_neighbors`: `dy` ranges over
`-1..=1`. -/
def countRow (g : Game) (x y nx : Int) (count : Nat) : Option Nat :=
  ([-1, 0, 1] : List Int).foldlM (g.rowStep x y nx) count

/-- One iteration of the outer `dx` loop body of
`Game::count_neighbors`: a neighbor column outside the grid is skipped
whole (`continue` is `pure count`), otherwise the inner loop runs. -/
def colStep (g : Game) (x y : Int) (count : Nat) (dx : Int) :
    Option Nat :=
  let nx := x + dx
  if nx < 0 || (g.ncols : Int) ≤ nx then
    pure count
  else
    g.countRow x y nx count

/-- The neighbor count `Game::count_neighbors`: `dx` ranges over
`-1..=1`, with `colStep` and `rowStep` the two loop bodies and `count`
starting at 0. -/
def count_neighbors (g : Game) (x y : Int) : Option Nat :=
  ([-1, 0, 1] : List Int).foldlM (g.colStep x y) 0

/-- One generation step, `Game::update`: a fresh buffer is computed from
the current `cells` (the neighbor counts all read the prior generation)
and replaces it.  The Rust rule is
`matches!((cell, neighbors), (true, 2) | (true, 3) | (false, 3))`. -/
def update (g : Game) : Option Game :=
  ((List.range g.ncols).mapM fun x =>
    (List.range g.nrows).mapM fun y =>
      (g.cellAt? x y).bind fun cell =>
        (g.count_neighbors (x : Int) (y : Int)).bind fun neighbors =>
          pure (match cell, neighbors with
                | true, 2 => true
                | true, 3 => true
                | false, 3 => true
                | _, _ => false)).bind
    fun next_cells =>
      pure { g with cells := next_cells }

/-- Iterated generation steps (any number of `update` calls). -/
def updateN : Nat → Game → Option Game
  | 0, g => pure g
  | n + 1, g => (g.update).bind (updateN n)

/-- Every cell of the grid is dead. -/
def allDead (g : Game) : Prop :=
  ∀ col ∈ g.cells, ∀ b ∈ col, b = false

instance (g : Game) : Decidable g.allDead := by
  unfold allDead; infer_instance

end Game

/-- The 8 offsets of the Moore neighborhood (the cell itself excluded),
used to state the specification of the neighbor count. -/
def mooreOffsets : List (Int × Int) :=
  [(-1, -1), (-1, 0), (-1, 1), (0, -1), (0, 1), (1, -1), (1, 0), (1, 1)]

/-- Specification-side neighbor count, following the spec's words: the
number of live cells among the 8 Moore-neighborhood positions around
`(x, y)`, excluding `(x, y)` itself and excluding every position
outside `[0, cols) × [0, rows)` (hard edge, no wraparound). -/
def Game.mooreLiveCount (g : Game) (x y : Int) : Nat :=
  (mooreOffsets.filter fun d =>
    decide (0 ≤ x + d.1 ∧ x + d.1 < (g.ncols : Int) ∧
            0 ≤ y + d.2 ∧ y + d.2 < (g.nrows : Int)) &&
    g.liveAt (x + d.1).toNat (y + d.2).toNat).length

/-- Indicator for one Moore offset: 1 when the offset position is in
bounds and live.  Used to decompose `mooreLiveCount` offset by offset. -/
def Game.nbrInd (g : Game) (x y dx dy : Int) : Nat :=
  if 0 ≤ x + dx ∧ x + dx < (g.ncols : Int) ∧ 0 ≤ y + dy ∧
      y + dy < (g.nrows : Int) ∧ g.liveAt (x + dx).toNat (y + dy).toNat = true
  then 1 else 0

/-- Indicator matching one step of the inner loop of `count_neighbors`
at neighbor column `nx`: in-bounds row, not the cell itself, live. -/
def Game.rowInd (g : Game) (x y nx dy : Int) : Nat :=
  if 0 ≤ y + dy ∧ y + dy < (g.nrows : Int) ∧ ¬(nx = x ∧ y + dy = y) ∧
      g.liveAt nx.toNat (y + dy).toNat = true
  then 1 else 0

/-- Indicator matching one step of the outer loop of `count_neighbors`:
zero when the neighbor column `x + dx` is skipped as out of bounds. -/
def Game.colInd (g : Game) (x y dx dy : Int) : Nat :=
  if 0 ≤ x + dx ∧ x + dx < (g.ncols : Int) then g.rowInd x y (x + dx) dy
  else 0

/-- The per-cell transition rule of `Game::update`,
`matches!((cell, neighbors), (true, 2) | (true, 3) | (false, 3))`. -/
def liferule (cell : Bool) (neighbors : Nat) : Bool :=
  match cell, neighbors with
  | true, 2 => true
  | true, 3 => true
  | false, 3 => true
  | _, _ => false

/-- The buffer `update` computes on a well-formed grid, described
pointwise: the rule applied to each prior cell and its prior neighbor
count. -/
def Game.nextCells (g : Game) : List (List Bool) :=
  (List.range g.ncols).map fun x =>
    (List.range g.nrows).map fun y =>
      liferule (g.liveAt x y) (g.mooreLiveCount (x : Int) (y : Int))

/-- The 5×5 fixture grid of the repository's tests (`test_count_neighbors`
and `test_update`): `Game::new(5, 5, 1)` with its cells overwritten. -/
def fixtureGame : Game :=
  { ncols := 5, nrows := 5, cell_size := 1,
    cells := [
      [false, true, false, true, false],
      [true, true, true, false, true],
      [false, false, true, false, false],
      [true, false, false, true, true],
      [false, true, false, true, false]] }

/-- The generation the fixture is expected to step to (`test_update`). -/
def fixtureNext : Game :=
  { ncols := 5, nrows := 5, cell_size := 1,
    cells := [
      [true, true, false, true, false],
      [true, false, false, false, false],
      [true, false, true, false, true],
      [false, true, false, true, true],
      [false, false, true, true, true]] }

/-- A small all-dead grid, used to instantiate theorems about all-dead
grids at a concrete input. -/
def deadGame : Game :=
  { ncols := 3, nrows := 2, cell_size := 1,
    cells := [[false, false], [false, false], [false, false]] }

/-- Setting a list entry to its own current value leaves the list
unchanged. -/
theorem set_getD_self {α : Type} (l : List α) (n : Nat) (d : α)
    (hn : n < l.length) : l.set n (l.getD n d) = l := by
  apply List.ext_getElem (by simp)
  intro i h1 h2
  by_cases hi : n = i
  · subst hi
    rw [List.getElem_set_self, List.getD_eq_getElem?_getD,
      List.getElem?_eq_getElem hn]
    rfl
  · rw [List.getElem_set_ne hi]

namespace Game

/-- On a well-formed grid, the fallible double index succeeds at every
in-bounds position and agrees with the total accessor `liveAt`. -/
theorem cellAt?_eq {g : Game} (h : g.WF) {x y : Nat}
    (hx : x < g.ncols) (hy : y < g.nrows) :
    g.cellAt? x y = some (g.liveAt x y) := by
  obtain ⟨hlen, hcols⟩ := h
  have hx' : x < g.cells.length := by omega
  have hcol : g.cells[x].length = g.nrows :=
    hcols _ (List.getElem_mem hx')
  have hy' : y < g.cells[x].length := by omega
  simp only [cellAt?, liveAt, List.getD_eq_getElem?_getD,
    List.getElem?_eq_getElem hx', Option.getD_some, Option.some_bind,
    List.getElem?_eq_getElem hy']

/-- One inner-loop iteration, evaluated: on a well-formed grid with an
in-bounds neighbor column, the step never panics and adds `rowInd`. -/
theorem rowStep_eq {g : Game} (h : g.WF) {x y nx : Int}
    (h0 : 0 ≤ nx) (h1 : nx < (g.ncols : Int)) (count : Nat) (dy : Int) :
    g.rowStep x y nx count dy = some (count + g.rowInd x y nx dy) := by
  have hx : nx.toNat < g.ncols := by omega
  unfold rowStep rowInd
  by_cases hb : y + dy < 0 ∨ (g.nrows : Int) ≤ y + dy
  · rw [if_pos (by simpa using hb), if_neg (by omega)]
    rfl
  · push_neg at hb
    obtain ⟨hb0, hb1⟩ := hb
    rw [if_neg (by simp; omega)]
    by_cases hself : nx = x ∧ y + dy = y
    · rw [if_pos hself, if_neg (by tauto)]
      rfl
    · rw [if_neg hself, cellAt?_eq h hx (by omega), Option.some_bind]
      by_cases hlive : g.liveAt nx.toNat (y + dy).toNat = true
      · rw [if_pos hlive, if_pos ⟨by omega, by omega, hself, hlive⟩]
        rfl
      · rw [if_neg hlive, if_neg (by tauto)]
        rfl

/-- The inner loop, evaluated: it adds the three row indicators. -/
theorem countRow_eq {g : Game} (h : g.WF) (x y : Int) {nx : Int}
    (h0 : 0 ≤ nx) (h1 : nx < (g.ncols : Int)) (count : Nat) :
    g.countRow x y nx count =
      some (count + g.rowInd x y nx (-1) + g.rowInd x y nx 0 +
        g.rowInd x y nx 1) := by
  unfold countRow
  simp only [List.foldlM, rowStep_eq h h0 h1, Option.some_bind]
  rfl

/-- One outer-loop iteration, evaluated: it adds the three column
indicators of its neighbor column. -/
theorem colStep_eq {g : Game} (h : g.WF) (x y : Int) (count : Nat)
    (dx : Int) :
    g.colStep x y count dx =
      some (count + g.colInd x y dx (-1) + g.colInd x y dx 0 +
        g.colInd x y dx 1) := by
  unfold colStep colInd
  by_cases hb : x + dx < 0 ∨ (g.ncols : Int) ≤ x + dx
  · have hc : ¬(0 ≤ x + dx ∧ x + dx < (g.ncols : Int)) := by omega
    rw [if_pos (by simpa using hb), if_neg hc, if_neg hc, if_neg hc]
    rfl
  · push_neg at hb
    obtain ⟨hb0, hb1⟩ := hb
    have hc : 0 ≤ x + dx ∧ x + dx < (g.ncols : Int) := ⟨by omega, hb1⟩
    rw [if_neg (by simp; omega), countRow_eq h x y (by omega) hb1 count,
      if_pos hc, if_pos hc, if_pos hc]

/-- A skipped column contributes nothing and an offset equal on both
axes to the cell itself contributes nothing: the `(0, 0)` offset. -/
theorem colInd_self (g : Game) (x y : Int) : g.colInd x y 0 0 = 0 := by
  have hself : x + 0 = x ∧ y + 0 = y := by omega
  unfold colInd rowInd
  split_ifs <;> first | rfl | tauto

/-- Away from the cell itself the loop indicator agrees with the
Moore-offset indicator. -/
theorem colInd_eq_nbrInd (g : Game) (x y dx dy : Int)
    (hne : ¬(dx = 0 ∧ dy = 0)) :
    g.colInd x y dx dy = g.nbrInd x y dx dy := by
  have hself : ¬(x + dx = x ∧ y + dy = y) := by omega
  unfold colInd rowInd nbrInd
  split_ifs <;> first | rfl | tauto

/-- The sum of the eight Moore-offset indicators is the spec-side
neighbor count. -/
theorem nbrInd_sum (g : Game) (x y : Int) :
    g.nbrInd x y (-1) (-1) + g.nbrInd x y (-1) 0 + g.nbrInd x y (-1) 1 +
      g.nbrInd x y 0 (-1) + g.nbrInd x y 0 1 +
      g.nbrInd x y 1 (-1) + g.nbrInd x y 1 0 + g.nbrInd x y 1 1 =
      g.mooreLiveCount x y := by
  unfold mooreLiveCount mooreOffsets nbrInd
  rw [← List.countP_eq_length_filter]
  simp only [List.countP_cons, List.countP_nil, Bool.and_eq_true,
    decide_eq_true_eq, and_assoc]
  split_ifs <;> omega

/-- The neighbor count of the code, on a well-formed grid, is total and
computes the spec-side Moore live count, for arbitrary coordinates. -/
theorem count_neighbors_eq {g : Game} (h : g.WF) (x y : Int) :
    g.count_neighbors x y = some (g.mooreLiveCount x y) := by
  unfold count_neighbors
  simp only [List.foldlM, colStep_eq h x y, Option.bind_eq_bind,
    Option.some_bind]
  rw [← nbrInd_sum g x y]
  have e1 := g.colInd_eq_nbrInd x y (-1) (-1) (by omega)
  have e2 := g.colInd_eq_nbrInd x y (-1) 0 (by omega)
  have e3 := g.colInd_eq_nbrInd x y (-1) 1 (by omega)
  have e4 := g.colInd_eq_nbrInd x y 0 (-1) (by omega)
  have e5 := g.colInd_eq_nbrInd x y 0 1 (by omega)
  have e6 := g.colInd_eq_nbrInd x y 1 (-1) (by omega)
  have e7 := g.colInd_eq_nbrInd x y 1 0 (by omega)
  have e8 := g.colInd_eq_nbrInd x y 1 1 (by omega)
  have e0 := g.colInd_self x y
  simp only [Option.pure_def, Option.some.injEq]
  omega

/-- The spec-side neighbor count never exceeds 8. -/
theorem mooreLiveCount_le_eight (g : Game) (x y : Int) :
    g.mooreLiveCount x y ≤ 8 := by
  have hle := List.length_filter_le
    (fun d : Int × Int =>
      decide (0 ≤ x + d.1 ∧ x + d.1 < (g.ncols : Int) ∧
              0 ≤ y + d.2 ∧ y + d.2 < (g.nrows : Int)) &&
      g.liveAt (x + d.1).toNat (y + d.2).toNat) mooreOffsets
  simpa [mooreLiveCount, mooreOffsets] using hle

end Game

/-- A `mapM` over `Option` whose function always succeeds is the plain
`map` of the value function. -/
theorem mapM_eq_map_of_some {α β : Type} (f : α → Option β) (v : α → β)
    (l : List α) (h : ∀ a ∈ l, f a = some (v a)) :
    l.mapM f = some (l.map v) := by
  induction l with
  | nil => rfl
  | cons a t ih =>
      rw [List.mapM_cons, h a (List.mem_cons_self a t),
        ih fun b hb => h b (List.mem_cons_of_mem a hb)]
      rfl

namespace Game

/-- The grid produced by one generation step on a well-formed grid:
cell `(x, y)` of the new buffer is the rule applied to the prior cell
and its prior neighbor count. -/
theorem update_eq {g : Game} (h : g.WF) :
    g.update = some { g with cells :=
      ((List.range g.ncols).map fun x =>
        (List.range g.nrows).map fun y =>
          liferule (g.liveAt x y) (g.mooreLiveCount (x : Int) (y : Int))) } := by
  unfold update
  rw [mapM_eq_map_of_some _
    (fun x => (List.range g.nrows).map fun y =>
      liferule (g.liveAt x y) (g.mooreLiveCount (x : Int) (y : Int))) _ ?_]
  · rfl
  intro x hx
  rw [List.mem_range] at hx
  rw [mapM_eq_map_of_some _
    (fun y => liferule (g.liveAt x y) (g.mooreLiveCount (x : Int) (y : Int))) _ ?_]
  intro y hy
  rw [List.mem_range] at hy
  rw [cellAt?_eq h hx hy, Option.some_bind, count_neighbors_eq h,
    Option.some_bind]
  rfl

/-- Reading a cell of a grid whose buffer is a coordinate-indexed map. -/
theorem liveAt_grid_map (g : Game) (f : Nat → Nat → Bool) {x y : Nat}
    (hx : x < g.ncols) (hy : y < g.nrows) :
    Game.liveAt { g with cells :=
      ((List.range g.ncols).map fun i =>
        (List.range g.nrows).map fun j => f i j) } x y = f x y := by
  simp [liveAt, List.getD_eq_getElem?_getD, List.getElem?_map,
    List.getElem?_range, hx, hy]

end Game

/-- The per-cell rule holds iff the spec's disjunction does: survival
with 2 or 3 neighbors, birth with exactly 3. -/
theorem liferule_iff (cell : Bool) (n : Nat) :
    liferule cell n = true ↔
      (cell = true ∧ (n = 2 ∨ n = 3)) ∨ (cell = false ∧ n = 3) := by
  cases cell <;> rcases n with _ | _ | _ | _ | n <;> simp [liferule]

/-- Keeping a list entry set at its current value: `getD` form of
element access after `set` at the same index. -/
theorem getD_set_self {α : Type} (l : List α) {n : Nat} (a d : α)
    (hn : n < l.length) : (l.set n a).getD n d = a := by
  rw [List.getD_eq_getElem?_getD, List.getElem?_set_self hn,
    Option.getD_some]

/-- Element access after `set` at a different index. -/
theorem getD_set_ne {α : Type} (l : List α) {n m : Nat} (hnm : n ≠ m)
    (a d : α) : (l.set n a).getD m d = l.getD m d := by
  rw [List.getD_eq_getElem?_getD, List.getElem?_set_ne hnm,
    ← List.getD_eq_getElem?_getD]

namespace Game

/-- On an all-dead grid every total read returns dead. -/
theorem liveAt_of_allDead {g : Game} (hd : g.allDead) (x y : Nat) :
    g.liveAt x y = false := by
  unfold liveAt
  by_cases hx : x < g.cells.length
  · have hcol : g.cells.getD x [] = g.cells[x] := by
      rw [List.getD_eq_getElem?_getD, List.getElem?_eq_getElem hx,
        Option.getD_some]
    rw [hcol]
    by_cases hy : y < g.cells[x].length
    · have hel : g.cells[x].getD y false = g.cells[x][y] := by
        rw [List.getD_eq_getElem?_getD, List.getElem?_eq_getElem hy,
          Option.getD_some]
      rw [hel]
      exact hd _ (List.getElem_mem hx) _ (List.getElem_mem hy)
    · rw [List.getD_eq_getElem?_getD, List.getElem?_eq_none (by omega),
        Option.getD_none]
  · have hcol : g.cells.getD x [] = [] := by
      rw [List.getD_eq_getElem?_getD, List.getElem?_eq_none (by omega),
        Option.getD_none]
    rw [hcol]
    rfl

/-- On an all-dead grid every neighbor count is zero. -/
theorem mooreLiveCount_of_allDead {g : Game} (hd : g.allDead)
    (x y : Int) : g.mooreLiveCount x y = 0 := by
  unfold mooreLiveCount
  simp [liveAt_of_allDead hd]

/-- An all-dead well-formed grid is a fixed point of `update`. -/
theorem update_of_allDead {g : Game} (h : g.WF) (hd : g.allDead) :
    g.update = some g := by
  rw [update_eq h]
  congr 1
  have hcells : ((List.range g.ncols).map fun x =>
      (List.range g.nrows).map fun y =>
        liferule (g.liveAt x y) (g.mooreLiveCount (x : Int) (y : Int)))
      = g.cells := by
    apply List.ext_getElem (by simp [h.1])
    intro i h1 h2
    have hi : i < g.ncols := by simpa using h1
    have hrow : g.cells[i].length = g.nrows := h.2 _ (List.getElem_mem h2)
    apply List.ext_getElem (by simp [hrow, hi])
    intro j h3 h4
    have hj : j < g.nrows := by omega
    simp only [List.getElem_map, List.getElem_range]
    rw [liveAt_of_allDead hd, mooreLiveCount_of_allDead hd]
    exact (hd _ (List.getElem_mem h2) _ (List.getElem_mem h4)).symm
  rw [hcells]

/-- An all-dead well-formed grid is unchanged by any number of
generation steps. -/
theorem updateN_of_allDead {g : Game} (h : g.WF) (hd : g.allDead) :
    ∀ n, updateN n g = some g := by
  intro n
  induction n with
  | zero => rfl
  | succ n ih =>
      show (g.update).bind (updateN n) = some g
      rw [update_of_allDead h hd, Option.some_bind, ih]

end Game

namespace Game

/-- Unfolding `liveAt` on a literal record. -/
theorem liveAt_mk (nc nr cs : Nat) (cells : List (List Bool))
    (x y : Nat) :
    (Game.mk nc nr cs cells).liveAt x y = (cells.getD x []).getD y false :=
  rfl

/-- Toggling never changes the stored dimensions. -/
theorem toggle_dims (g : Game) (x y : Nat) :
    (g.toggle_cell_state x y).ncols = g.ncols ∧
      (g.toggle_cell_state x y).nrows = g.nrows ∧
      (g.toggle_cell_state x y).cell_size = g.cell_size := by
  unfold toggle_cell_state
  split_ifs <;> exact ⟨rfl, rfl, rfl⟩

/-- An in-bounds toggle flips the targeted cell. -/
theorem toggle_liveAt_self {g : Game} (h : g.WF) {x y : Nat}
    (hx : x < g.ncols) (hy : y < g.nrows) :
    (g.toggle_cell_state x y).liveAt x y = !(g.liveAt x y) := by
  obtain ⟨hlen, hcols⟩ := h
  have hx' : x < g.cells.length := by omega
  have hcol : g.cells.getD x [] = g.cells[x] := by
    rw [List.getD_eq_getElem?_getD, List.getElem?_eq_getElem hx',
      Option.getD_some]
  have hylen : y < (g.cells.getD x []).length := by
    rw [hcol, hcols _ (List.getElem_mem hx')]; omega
  unfold toggle_cell_state
  rw [if_pos ⟨hx, hy⟩, liveAt_mk, getD_set_self _ _ _ hx',
    getD_set_self _ _ _ hylen]
  rfl

/-- A toggle leaves every other cell unchanged. -/
theorem toggle_liveAt_other {g : Game} (h : g.WF) {x y : Nat}
    (x' y' : Nat) (hne : ¬(x' = x ∧ y' = y)) :
    (g.toggle_cell_state x y).liveAt x' y' = g.liveAt x' y' := by
  unfold toggle_cell_state
  split_ifs with hin
  · rw [liveAt_mk]
    by_cases hxx : x = x'
    · subst hxx
      have hyy : y ≠ y' := fun hyy => hne ⟨rfl, hyy.symm⟩
      have hx' : x < g.cells.length := by
        have := h.1; omega
      rw [getD_set_self _ _ _ hx', getD_set_ne _ hyy _ _]
      rfl
    · rw [getD_set_ne _ hxx _ _]
      rfl
  · rfl

/-- Toggling the same coordinates twice restores the grid. -/
theorem toggle_toggle {g : Game} (h : g.WF) (x y : Nat) :
    (g.toggle_cell_state x y).toggle_cell_state x y = g := by
  obtain ⟨hlen, hcols⟩ := h
  unfold toggle_cell_state
  by_cases hin : x < g.ncols ∧ y < g.nrows
  · have hx' : x < g.cells.length := by omega
    have hcol : g.cells.getD x [] = g.cells[x] := by
      rw [List.getD_eq_getElem?_getD, List.getElem?_eq_getElem hx',
        Option.getD_some]
    have hylen : y < (g.cells.getD x []).length := by
      rw [hcol, hcols _ (List.getElem_mem hx')]; omega
    rw [if_pos hin, if_pos hin, getD_set_self _ _ _ hx',
      getD_set_self _ _ _ hylen, Bool.not_not, List.set_set,
      List.set_set, set_getD_self _ _ _ hylen, set_getD_self _ _ _ hx']
  · rw [if_neg hin, if_neg hin]

end Game

namespace Game

/-- Restatement of `update_eq` through the named buffer `nextCells`. -/
theorem update_eq_nextCells {g : Game} (h : g.WF) :
    g.update = some { g with cells := g.nextCells } :=
  update_eq h

/-- Reading the new buffer at an in-bounds position gives the rule
applied to the prior cell and its prior neighbor count. -/
theorem liveAt_nextCells {g : Game} {x y : Nat}
    (hx : x < g.ncols) (hy : y < g.nrows) :
    Game.liveAt { g with cells := g.nextCells } x y =
      liferule (g.liveAt x y) (g.mooreLiveCount (x : Int) (y : Int)) := by
  unfold nextCells
  exact liveAt_grid_map g _ hx hy

end Game

/-- Claim C1: for every well-formed grid and every in-bounds cell
`(x, y)`, after `update` the cell at `(x, y)` is alive iff it was alive
with 2 or 3 live Moore neighbors, or dead with exactly 3; the neighbor
count `mooreLiveCount` is taken from the prior generation `g`, never
from the new buffer. -/
theorem update_matches_life_rule {g : Game} (h : g.WF) {x y : Nat}
    (hx : x < g.ncols) (hy : y < g.nrows) :
    ∃ g', g.update = some g' ∧
      (g'.liveAt x y = true ↔
        ((g.liveAt x y = true ∧
            (g.mooreLiveCount (x : Int) (y : Int) = 2 ∨
              g.mooreLiveCount (x : Int) (y : Int) = 3)) ∨
          (g.liveAt x y = false ∧
            g.mooreLiveCount (x : Int) (y : Int) = 3))) := by
  refine ⟨_, Game.update_eq_nextCells h, ?_⟩
  rw [Game.liveAt_nextCells hx hy, liferule_iff]

/-- Witness for C1 at the test fixture and cell `(0, 0)`. -/
theorem update_matches_life_rule_witness :
    fixtureGame.WF ∧
      ∃ g', fixtureGame.update = some g' ∧
        (g'.liveAt 0 0 = true ↔
          ((fixtureGame.liveAt 0 0 = true ∧
              (fixtureGame.mooreLiveCount 0 0 = 2 ∨
                fixtureGame.mooreLiveCount 0 0 = 3)) ∨
            (fixtureGame.liveAt 0 0 = false ∧
              fixtureGame.mooreLiveCount 0 0 = 3))) :=
  ⟨by decide, update_matches_life_rule (by decide) (by decide) (by decide)⟩

/-- Claim C2: for every well-formed grid and every in-bounds coordinate
`(x, y)`, `count_neighbors` returns exactly the number of live cells
among the 8 Moore-neighborhood positions, excluding the cell itself and
every out-of-grid position (no wraparound), and that value is at
most 8. -/
theorem count_neighbors_matches_moore {g : Game} (h : g.WF) {x y : Nat}
    (hx : x < g.ncols) (hy : y < g.nrows) :
    g.count_neighbors (x : Int) (y : Int) =
        some (g.mooreLiveCount (x : Int) (y : Int)) ∧
      g.mooreLiveCount (x : Int) (y : Int) ≤ 8 :=
  ⟨Game.count_neighbors_eq h x y, Game.mooreLiveCount_le_eight g x y⟩

/-- Witness for C2 at the test fixture and cell `(2, 2)`. -/
theorem count_neighbors_matches_moore_witness :
    fixtureGame.count_neighbors 2 2 = some (fixtureGame.mooreLiveCount 2 2) ∧
      fixtureGame.mooreLiveCount 2 2 ≤ 8 :=
  count_neighbors_matches_moore (by decide) (x := 2) (y := 2)
    (by decide) (by decide)

/-- Claim C3: one generation step on the repository's 5×5 fixture grid
produces exactly the expected grid of `test_update`. -/
theorem update_on_fixture : fixtureGame.update = some fixtureNext := by
  decide

/-- Claim C10: `count_neighbors` is total on every well-formed grid and
every pair of integer coordinates, however far outside the grid: every
index it performs is bounds-checked first, so it never reaches the
panicking branch and returns exactly the count of in-bounds live
neighbors. -/
theorem count_neighbors_total (g : Game) (h : g.WF) (x y : Int) :
    (g.count_neighbors x y).isSome = true ∧
      g.count_neighbors x y = some (g.mooreLiveCount x y) := by
  have e := Game.count_neighbors_eq h x y
  exact ⟨by rw [e]; rfl, e⟩

/-- Witness for C10 at the test fixture and the far-outside coordinate
`(-100, 7)`. -/
theorem count_neighbors_total_witness :
    (fixtureGame.count_neighbors (-100) 7).isSome = true ∧
      fixtureGame.count_neighbors (-100) 7 =
        some (fixtureGame.mooreLiveCount (-100) 7) :=
  count_neighbors_total fixtureGame (by decide) (-100) 7

/-- Claim C4: `validate_start_parameters` errors iff `height == 0`,
`width == 0` or `cell_size == 0`, returning `Ok(())` for all other
inputs, and `Game::new` errors exactly when that validation fails (an
error carries no grid, so no partially-constructed grid is
observable). -/
theorem validation_characterization (height width cell_size : Nat) :
    ((∃ e, Game.validate_start_parameters height width cell_size =
        .error e) ↔ (height = 0 ∨ width = 0 ∨ cell_size = 0)) ∧
      ((Game.validate_start_parameters height width cell_size = .ok ()) ↔
        ¬(height = 0 ∨ width = 0 ∨ cell_size = 0)) ∧
      ((∃ e, Game.new height width cell_size = .error e) ↔
        (∃ e, Game.validate_start_parameters height width cell_size =
          .error e)) := by
  unfold Game.new Game.validate_start_parameters
  have hb : ((height = 0 || width = 0 || cell_size = 0) = true) ↔
      (height = 0 ∨ width = 0 ∨ cell_size = 0) := by
    simp [or_assoc]
  by_cases hz : height = 0 ∨ width = 0 ∨ cell_size = 0
  · rw [if_pos (hb.mpr hz)]
    simp [hz]
  · rw [if_neg (fun hc => hz (hb.mp hc))]
    simp [hz]

/-- Claim C5: whenever validation passes, `Game::new` returns a grid
with `width / cell_size` columns and `height / cell_size` rows
(truncating division), holding exactly `rows * cols` cells, all dead. -/
theorem new_builds_all_dead_grid (height width cell_size : Nat)
    (hv : Game.validate_start_parameters height width cell_size =
      .ok ()) :
    ∃ g, Game.new height width cell_size = .ok g ∧
      g.ncols = width / cell_size ∧ g.nrows = height / cell_size ∧
      g.cells.length = width / cell_size ∧
      (∀ col ∈ g.cells, col.length = height / cell_size) ∧
      (g.cells.map List.length).sum =
        (height / cell_size) * (width / cell_size) ∧
      g.allDead := by
  unfold Game.new
  rw [hv]
  refine ⟨_, rfl, rfl, rfl, by simp, ?_, ?_, ?_⟩
  · intro col hcol
    rw [List.eq_of_mem_replicate hcol]
    simp
  · simp [List.map_replicate, List.sum_replicate, Nat.mul_comm]
  · intro col hcol b hb
    rw [List.eq_of_mem_replicate hcol] at hb
    exact List.eq_of_mem_replicate hb

/-- Witness for C5 at the repository's `test_create_new_valid_game`
parameters `(600, 800, 10)`. -/
theorem new_builds_all_dead_grid_witness :
    ∃ g, Game.new 600 800 10 = .ok g ∧
      g.ncols = 800 / 10 ∧ g.nrows = 600 / 10 ∧
      g.cells.length = 800 / 10 ∧
      (∀ col ∈ g.cells, col.length = 600 / 10) ∧
      (g.cells.map List.length).sum = (600 / 10) * (800 / 10) ∧
      g.allDead :=
  new_builds_all_dead_grid 600 800 10 rfl

/-- Claim C9: there are inputs that pass validation yet produce a grid
with zero columns or zero rows: whenever `height`, `width`, `cell_size`
are nonzero but `cell_size > width` or `cell_size > height`,
`Game::new` succeeds with `width / cell_size = 0` or
`height / cell_size = 0`. -/
theorem new_ok_with_zero_dimension (height width cell_size : Nat)
    (hh : height ≠ 0) (hw : width ≠ 0) (hc : cell_size ≠ 0)
    (hlt : width < cell_size ∨ height < cell_size) :
    ∃ g, Game.new height width cell_size = .ok g ∧
      (g.ncols = 0 ∨ g.nrows = 0) := by
  unfold Game.new Game.validate_start_parameters
  rw [if_neg (by simp [hh, hw, hc])]
  refine ⟨_, rfl, ?_⟩
  rcases hlt with hlt | hlt
  · exact Or.inl (Nat.div_eq_of_lt hlt)
  · exact Or.inr (Nat.div_eq_of_lt hlt)

/-- Witness for C9 at `(height, width, cell_size) = (1, 1, 2)`. -/
theorem new_ok_with_zero_dimension_witness :
    ∃ g, Game.new 1 1 2 = .ok g ∧ (g.ncols = 0 ∨ g.nrows = 0) :=
  new_ok_with_zero_dimension 1 1 2 (by decide) (by decide) (by decide)
    (Or.inl (by decide))

/-- Claim C6: on a well-formed grid, an in-bounds toggle flips exactly
the one targeted cell, leaving every other cell and the grid dimensions
unchanged, while a toggle outside `[0, cols) × [0, rows)` leaves the
whole grid unchanged (a no-op, not an error). -/
theorem toggle_frame (g : Game) (h : g.WF) (x y : Nat) :
    ((x < g.ncols ∧ y < g.nrows) →
      ((g.toggle_cell_state x y).liveAt x y = !(g.liveAt x y) ∧
        (∀ x' y' : Nat, ¬(x' = x ∧ y' = y) →
          (g.toggle_cell_state x y).liveAt x' y' = g.liveAt x' y') ∧
        (g.toggle_cell_state x y).ncols = g.ncols ∧
        (g.toggle_cell_state x y).nrows = g.nrows)) ∧
    (¬(x < g.ncols ∧ y < g.nrows) → g.toggle_cell_state x y = g) := by
  constructor
  · intro hin
    exact ⟨Game.toggle_liveAt_self h hin.1 hin.2,
      fun x' y' hne => Game.toggle_liveAt_other h x' y' hne,
      (Game.toggle_dims g x y).1, (Game.toggle_dims g x y).2.1⟩
  · intro hout
    unfold Game.toggle_cell_state
    rw [if_neg hout]

/-- Witness for C6: an in-bounds toggle at `(1, 3)` on the fixture, a
specific untouched cell `(4, 2)`, and an out-of-bounds toggle at
`(9, 9)`. -/
theorem toggle_frame_witness :
    (fixtureGame.toggle_cell_state 1 3).liveAt 1 3 =
        !(fixtureGame.liveAt 1 3) ∧
      (fixtureGame.toggle_cell_state 1 3).liveAt 4 2 =
        fixtureGame.liveAt 4 2 ∧
      (fixtureGame.toggle_cell_state 1 3).ncols = fixtureGame.ncols ∧
      (fixtureGame.toggle_cell_state 1 3).nrows = fixtureGame.nrows ∧
      fixtureGame.toggle_cell_state 9 9 = fixtureGame :=
  ⟨((toggle_frame fixtureGame (by decide) 1 3).1 ⟨by decide, by decide⟩).1,
    ((toggle_frame fixtureGame (by decide) 1 3).1
      ⟨by decide, by decide⟩).2.1 4 2 (by decide),
    ((toggle_frame fixtureGame (by decide) 1 3).1
      ⟨by decide, by decide⟩).2.2.1,
    ((toggle_frame fixtureGame (by decide) 1 3).1
      ⟨by decide, by decide⟩).2.2.2,
    (toggle_frame fixtureGame (by decide) 9 9).2 (by decide)⟩

/-- Claim C7: on a well-formed grid, toggling the same coordinates
twice in succession restores the grid exactly (toggle is an
involution); this holds for out-of-bounds coordinates as well, where
both toggles are no-ops. -/
theorem toggle_twice_id (g : Game) (h : g.WF) (x y : Nat) :
    (g.toggle_cell_state x y).toggle_cell_state x y = g :=
  Game.toggle_toggle h x y

/-- Witness for C7 at the fixture and cell `(2, 4)`. -/
theorem toggle_twice_id_witness :
    (fixtureGame.toggle_cell_state 2 4).toggle_cell_state 2 4 =
      fixtureGame :=
  toggle_twice_id fixtureGame (by decide) 2 4

/-- Claim C8: a well-formed all-dead grid is a fixed point of `update`:
one step leaves it all dead (indeed identical), and so does any number
of steps. -/
theorem all_dead_fixed (g : Game) (h : g.WF) (hd : g.allDead) :
    g.update = some g ∧ ∀ n, Game.updateN n g = some g :=
  ⟨Game.update_of_allDead h hd, Game.updateN_of_allDead h hd⟩

/-- Witness for C8 on a concrete 3×2 all-dead grid, with 5 steps. -/
theorem all_dead_fixed_witness :
    deadGame.update = some deadGame ∧
      Game.updateN 5 deadGame = some deadGame :=
  ⟨(all_dead_fixed deadGame (by decide) (by decide)).1,
    (all_dead_fixed deadGame (by decide) (by decide)).2 5⟩
